import Mathlib

/-!
Shallow embedding of the `head-rs` crate (`src/slice.rs`): the
`HeaderSlice<H, T>` dynamically-sized view, its layout arithmetic, its
checked and unchecked constructors, and the `H = T` reinterpretation
between plain slices and header-slices.

Modelling conventions:
* A Rust slice / region of memory is a `List`.
* A `usize` is a `Nat`; `usize::wrapping_sub` is subtraction modulo `2^64`.
* A reference `&H` (or a `Box<H>`) is a `Ref H`: an address plus the
  pointee value, since the code branches on the address's alignment.
* A type's layout is its `(size, align)` pair of naturals; the `repr(C)`
  rules give field offsets (each field offset is the running size rounded
  up to the field's alignment) and struct alignment (max of field
  alignments).  `MaybeUninit<X>` has the layout of `X`, and `[T; 0]` has
  size `0` and the alignment of `T`.
* The fat-pointer view `&HeaderSlice<H, T>` is `HeaderSlice H T`: the
  header value plus the payload list (the list length is the external
  length metadata of the fat pointer).
-/

namespace HeadRs

/-- The number of values of `usize` (64-bit target). -/
def USIZE_BOUND : Nat := 2 ^ 64

/-- `usize::wrapping_sub`: subtraction modulo `2^64`, on `Nat`. -/
def wrappingSub (a b : Nat) : Nat :=
  (a + USIZE_BOUND - b % USIZE_BOUND) % USIZE_BOUND

/-- Round `n` up to the next multiple of `a` (used by the `repr(C)`
field-offset rule). -/
def roundUp (n a : Nat) : Nat := (n + a - 1) / a * a

/-- Rust alignments are always powers of two. -/
def IsPowTwo (n : Nat) : Prop := ∃ k, n = 2 ^ k

/-- The view `&HeaderSlice<H, T>`: a header value followed by a payload
list.  The payload's length is the fat-pointer metadata. -/
structure HeaderSlice (H T : Type) where
  header : H
  slice : List T
deriving Repr, DecidableEq

/-- A reference `&H` / `&mut H` / `Box<H>`: an address plus the pointee. -/
structure Ref (H : Type) where
  addr : Nat
  val : H
deriving Repr, DecidableEq

/-- An owned `Box<HeaderSlice<H, T>>`: the address of its allocation plus
the header and payload it owns. -/
structure BoxedHeaderSlice (H T : Type) where
  addr : Nat
  header : H
  slice : List T
deriving Repr, DecidableEq

/-- `HeaderSlice::align`: alignment of `HeaderSliceDummy<H, T>`, a
`repr(C)` struct of a `MaybeUninit<H>` field and a `MaybeUninit<[T; 0]>`
field, hence `max (align H) (align T)` by the `repr(C)` rule. -/
def align (alignH alignT : Nat) : Nat := max alignH alignT

/-- `HeaderSlice::items_offset`: the offset of the `slice` field inside
`HeaderSliceDummy<H, T>`.  By the `repr(C)` rule the second field sits at
the first field's size `sizeH` rounded up to the second field's alignment,
and `[T; 0]` is aligned like `T`. -/
def items_offset (sizeH alignH alignT : Nat) : Nat := roundUp sizeH alignT

/-- Modelled from the spec (for comparison with `items_offset`): the size
of a structure containing only the header, padded up to
`max (align H) (align T)`. -/
def spec_padded_header_size (sizeH alignH alignT : Nat) : Nat :=
  roundUp sizeH (max alignH alignT)

/-- `is_header_slice_aligned`: whether the header address is a multiple of
the slice element type's alignment. -/
def is_header_slice_aligned (alignT addr : Nat) : Bool :=
  addr % alignT == 0

/-- `HeaderSlice::from_raw_parts`: form a shared view from the pointee at
the header pointer and `len` elements of the memory after it. -/
def from_raw_parts {H T : Type} (hdr : H) (mem : List T) (len : Nat) :
    HeaderSlice H T :=
  ⟨hdr, mem.take len⟩

/-- `HeaderSlice::from_raw_parts_mut`: the mutable variant, same layout
computation as the shared one. -/
def from_raw_parts_mut {H T : Type} (hdr : H) (mem : List T) (len : Nat) :
    HeaderSlice H T :=
  ⟨hdr, mem.take len⟩

/-- `HeaderSlice::boxed_from_raw_parts`: form an owned header-slice from a
raw allocation address, its pointee, and `len` following elements. -/
def boxed_from_raw_parts {H T : Type} (addr : Nat) (hdr : H) (mem : List T)
    (len : Nat) : BoxedHeaderSlice H T :=
  ⟨addr, hdr, mem.take len⟩

/-- `HeaderSlice::from_header_unchecked`: zero-length view over a header
reference. -/
def from_header_unchecked {H T : Type} (r : Ref H) : HeaderSlice H T :=
  from_raw_parts r.val [] 0

/-- `HeaderSlice::from_header_unchecked_mut`: zero-length mutable view
over a header reference. -/
def from_header_unchecked_mut {H T : Type} (r : Ref H) : HeaderSlice H T :=
  from_raw_parts_mut r.val [] 0

/-- `HeaderSlice::from_boxed_header_unchecked`: zero-length owned
header-slice over the boxed header's allocation. -/
def from_boxed_header_unchecked {H T : Type} (b : Ref H) :
    BoxedHeaderSlice H T :=
  boxed_from_raw_parts b.addr b.val [] 0

/-- `HeaderSlice::from_header`: checked construction from a header
reference; succeeds iff the address is aligned to `T`. -/
def from_header {H T : Type} (alignT : Nat) (r : Ref H) :
    Option (HeaderSlice H T) :=
  if is_header_slice_aligned alignT r.addr then
    some (from_header_unchecked r)
  else
    none

/-- `HeaderSlice::from_header_mut`: checked mutable construction from a
header reference; succeeds iff the address is aligned to `T`. -/
def from_header_mut {H T : Type} (alignT : Nat) (r : Ref H) :
    Option (HeaderSlice H T) :=
  if is_header_slice_aligned alignT r.addr then
    some (from_header_unchecked_mut r)
  else
    none

/-- `HeaderSlice::from_boxed_header`: checked owned construction; on
alignment failure the original box is handed back as the error value. -/
def from_boxed_header {H T : Type} (alignT : Nat) (b : Ref H) :
    Except (Ref H) (BoxedHeaderSlice H T) :=
  if is_header_slice_aligned alignT b.addr then
    Except.ok (from_boxed_header_unchecked b)
  else
    Except.error b

/-- `HeaderSliceHeader::as_header_slice`: the zero-length view over the
`header` field of the aligned temporary `HeaderSliceHeader<H, T>`. -/
def as_header_slice {H : Type} (T : Type) (h : H) : HeaderSlice H T :=
  from_raw_parts h ([] : List T) 0

/-- `HeaderSlice::with_header`: place `header` in an aligned temporary and
call `f` on a zero-length view of it, returning the result of `f`. -/
def with_header {H T R : Type} (h : H) (f : HeaderSlice H T → R) : R :=
  f (as_header_slice T h)

/-- `HeaderSlice::<H, H>::from_full_slice_unchecked`: view over a slice
whose first element is the header, with payload length
`wrapping_sub (len, 1)`. -/
def from_full_slice_unchecked {H : Type} [Inhabited H] (l : List H) :
    HeaderSlice H H :=
  from_raw_parts l.headI l.tail (wrappingSub l.length 1)

/-- `HeaderSlice::<H, H>::from_full_slice`: `none` on the empty slice,
otherwise the unchecked construction. -/
def from_full_slice {H : Type} [Inhabited H] (l : List H) :
    Option (HeaderSlice H H) :=
  if l.isEmpty then none else some (from_full_slice_unchecked l)

/-- `HeaderSlice::<H, H>::from_full_boxed_slice_unchecked`: owned variant
of the unchecked full-slice construction. -/
def from_full_boxed_slice_unchecked {H : Type} [Inhabited H] (addr : Nat)
    (l : List H) : BoxedHeaderSlice H H :=
  boxed_from_raw_parts addr l.headI l.tail (wrappingSub l.length 1)

/-- `HeaderSlice::<H, H>::as_full_slice`: the slice of length
`slice.len() + 1` spanning from the header through the payload. -/
def as_full_slice {H : Type} (hs : HeaderSlice H H) : List H :=
  hs.header :: hs.slice

theorem wrappingSub_small (a b : Nat) (hba : b ≤ a) (ha : a < USIZE_BOUND) :
    wrappingSub a b = a - b := by
  unfold wrappingSub
  have hb : b % USIZE_BOUND = b := Nat.mod_eq_of_lt (lt_of_le_of_lt hba ha)
  rw [hb]
  have h1 : a + USIZE_BOUND - b = (a - b) + USIZE_BOUND := by omega
  rw [h1, Nat.add_mod_right]
  exact Nat.mod_eq_of_lt (by omega)

theorem roundUp_eq_self {n a : Nat} (ha : 0 < a) (h : a ∣ n) :
    roundUp n a = n := by
  obtain ⟨k, rfl⟩ := h
  unfold roundUp
  have h1 : a * k + a - 1 = a * k + (a - 1) := by omega
  rw [h1, Nat.mul_add_div ha, Nat.div_eq_of_lt (by omega), Nat.add_zero,
    Nat.mul_comm]

theorem pow_two_dvd_of_le {i j : Nat} (h : (2 : Nat) ^ i ≤ 2 ^ j) :
    (2 : Nat) ^ i ∣ 2 ^ j :=
  pow_dvd_pow 2 ((Nat.pow_le_pow_iff_right (by omega)).1 h)

/-- C1: `from_full_slice seq` is `none` iff `seq` is empty; on a non-empty
`seq` it is `some` of a view whose header is `seq[0]`, whose payload is
`seq[1..]`, of length `len seq - 1`.  (Rust slice lengths are below
`2^64`.) -/
theorem from_full_slice_correct {H : Type} [Inhabited H] (l : List H)
    (hlen : l.length < USIZE_BOUND) :
    (from_full_slice l = none ↔ l = [])
    ∧ ∀ v, from_full_slice l = some v →
        v.header = l.headI ∧ v.slice = l.tail
        ∧ v.slice.length = l.length - 1 := by
  cases l with
  | nil =>
    refine ⟨by simp [from_full_slice], ?_⟩
    intro v hv
    simp [from_full_slice] at hv
  | cons a t =>
    have hw : wrappingSub (t.length + 1) 1 = t.length := by
      rw [wrappingSub_small _ _ (by omega) (by simpa using hlen)]
      omega
    refine ⟨by simp [from_full_slice], ?_⟩
    intro v hv
    simp [from_full_slice] at hv
    subst hv
    simp [from_full_slice_unchecked, from_raw_parts, hw]

/-- C1 witness at `seq = [1, 2, 3]`. -/
theorem from_full_slice_correct_witness :
    (([1, 2, 3] : List Nat).length < USIZE_BOUND)
    ∧ ((from_full_slice ([1, 2, 3] : List Nat) = none
        ↔ ([1, 2, 3] : List Nat) = [])
      ∧ ∀ v, from_full_slice ([1, 2, 3] : List Nat) = some v →
          v.header = ([1, 2, 3] : List Nat).headI
          ∧ v.slice = ([1, 2, 3] : List Nat).tail
          ∧ v.slice.length = ([1, 2, 3] : List Nat).length - 1) :=
  ⟨by decide, from_full_slice_correct [1, 2, 3] (by decide)⟩

/-- C2: converting the successfully formed view back with `as_full_slice`
recovers the original non-empty slice element for element. -/
theorem from_full_slice_round_trip {H : Type} [Inhabited H] (l : List H)
    (hne : l ≠ []) (hlen : l.length < USIZE_BOUND) :
    ∀ v, from_full_slice l = some v → as_full_slice v = l := by
  intro v hv
  cases l with
  | nil => exact absurd rfl hne
  | cons a t =>
    have hw : wrappingSub (t.length + 1) 1 = t.length := by
      rw [wrappingSub_small _ _ (by omega) (by simpa using hlen)]
      omega
    simp [from_full_slice] at hv
    subst hv
    simp [as_full_slice, from_full_slice_unchecked, from_raw_parts, hw]

/-- C2 witness at `seq = [4, 5]`. -/
theorem from_full_slice_round_trip_witness :
    (([4, 5] : List Nat) ≠ [] ∧ ([4, 5] : List Nat).length < USIZE_BOUND)
    ∧ ∀ v, from_full_slice ([4, 5] : List Nat) = some v →
        as_full_slice v = [4, 5] :=
  ⟨⟨by decide, by decide⟩,
    from_full_slice_round_trip [4, 5] (by decide) (by decide)⟩

/-- C9: for any `H = T` header-slice view, `as_full_slice` is non-empty of
length `payload length + 1`, so `from_full_slice` on it succeeds and
returns the same view. -/
theorem as_full_slice_round_trip {H : Type} [Inhabited H]
    (hs : HeaderSlice H H) (hlen : hs.slice.length + 1 < USIZE_BOUND) :
    as_full_slice hs ≠ []
    ∧ (as_full_slice hs).length = hs.slice.length + 1
    ∧ from_full_slice (as_full_slice hs) = some hs := by
  obtain ⟨h, t⟩ := hs
  have hlen2 : (h :: t).length < USIZE_BOUND := by simpa using hlen
  have hw : wrappingSub (t.length + 1) 1 = t.length := by
    rw [wrappingSub_small _ _ (by omega) (by simpa using hlen2)]
    omega
  refine ⟨by simp [as_full_slice], by simp [as_full_slice], ?_⟩
  simp [from_full_slice, as_full_slice, from_full_slice_unchecked,
    from_raw_parts, hw]

/-- C9 witness at the view with header `1` and payload `[2, 3]`. -/
theorem as_full_slice_round_trip_witness :
    ((⟨1, [2, 3]⟩ : HeaderSlice Nat Nat).slice.length + 1 < USIZE_BOUND)
    ∧ (as_full_slice (⟨1, [2, 3]⟩ : HeaderSlice Nat Nat) ≠ []
      ∧ (as_full_slice (⟨1, [2, 3]⟩ : HeaderSlice Nat Nat)).length
          = (⟨1, [2, 3]⟩ : HeaderSlice Nat Nat).slice.length + 1
      ∧ from_full_slice (as_full_slice (⟨1, [2, 3]⟩ : HeaderSlice Nat Nat))
          = some ⟨1, [2, 3]⟩) :=
  ⟨by decide, as_full_slice_round_trip ⟨1, [2, 3]⟩ (by decide)⟩

/-- C10: on any slice meeting the non-empty precondition the wrapping
subtraction `wrapping_sub (len, 1)` equals `len - 1` exactly, so both
unchecked same-type constructors produce payload length `len - 1`; only
the forbidden empty input wraps, to the maximum `usize` value. -/
theorem wrapping_sub_payload_len {H : Type} [Inhabited H] :
    (∀ (l : List H) (addr : Nat), l ≠ [] → l.length < USIZE_BOUND →
      wrappingSub l.length 1 = l.length - 1
      ∧ (from_full_slice_unchecked l).slice.length = l.length - 1
      ∧ (from_full_boxed_slice_unchecked addr l).slice.length
          = l.length - 1)
    ∧ wrappingSub 0 1 = USIZE_BOUND - 1 := by
  constructor
  · intro l addr hne hlen
    have hw : wrappingSub l.length 1 = l.length - 1 :=
      wrappingSub_small _ _ (List.length_pos.mpr hne) hlen
    refine ⟨hw, ?_, ?_⟩
    · simp [from_full_slice_unchecked, from_raw_parts, hw,
        List.length_take, List.length_tail]
    · simp [from_full_boxed_slice_unchecked, boxed_from_raw_parts, hw,
        List.length_take, List.length_tail]
  · decide

/-- C10 witness at `seq = [5, 6]` and at the empty input. -/
theorem wrapping_sub_payload_len_witness :
    (([5, 6] : List Nat) ≠ [] ∧ ([5, 6] : List Nat).length < USIZE_BOUND)
    ∧ (wrappingSub ([5, 6] : List Nat).length 1
          = ([5, 6] : List Nat).length - 1
      ∧ (from_full_slice_unchecked ([5, 6] : List Nat)).slice.length
          = ([5, 6] : List Nat).length - 1
      ∧ (from_full_boxed_slice_unchecked 0 ([5, 6] : List Nat)).slice.length
          = ([5, 6] : List Nat).length - 1)
    ∧ wrappingSub 0 1 = USIZE_BOUND - 1 :=
  ⟨⟨by decide, by decide⟩,
    (wrapping_sub_payload_len (H := Nat)).1 [5, 6] 0 (by decide) (by decide),
    (wrapping_sub_payload_len (H := Nat)).2⟩

/-- C3: `from_header` is `some` iff the header address is a multiple of
`T`'s alignment; on success the view carries the header value with an
empty payload, and on a misaligned address it is `none`. -/
theorem from_header_aligned_iff {H T : Type} (alignT : Nat) (r : Ref H) :
    ((from_header (T := T) alignT r).isSome = true ↔ r.addr % alignT = 0)
    ∧ (∀ v, from_header (T := T) alignT r = some v →
        v.header = r.val ∧ v.slice = [])
    ∧ (r.addr % alignT ≠ 0 → from_header (T := T) alignT r = none) := by
  by_cases h : r.addr % alignT = 0
  · simp [from_header, is_header_slice_aligned, h, from_header_unchecked,
      from_raw_parts]
  · simp [from_header, is_header_slice_aligned, h]

/-- C3 witness: address `8` is aligned to `4` and succeeds, address `6` is
not and fails. -/
theorem from_header_aligned_iff_witness :
    (from_header (T := Nat) 4 (Ref.mk 8 (7 : Nat))).isSome = true
    ∧ from_header (T := Nat) 4 (Ref.mk 6 (7 : Nat)) = none :=
  ⟨(from_header_aligned_iff 4 (Ref.mk 8 7)).1.mpr (by decide),
    (from_header_aligned_iff 4 (Ref.mk 6 7)).2.2 (by decide)⟩

/-- C4: `items_offset` equals the size of a header-only structure padded
up to `max (align H) (align T)`, given Rust's layout guarantees that
alignments are powers of two and a type's size is a multiple of its
alignment. -/
theorem items_offset_eq_spec (sizeH alignH alignT : Nat)
    (hH : IsPowTwo alignH) (hT : IsPowTwo alignT)
    (hdvd : alignH ∣ sizeH) :
    items_offset sizeH alignH alignT
      = spec_padded_header_size sizeH alignH alignT := by
  obtain ⟨i, rfl⟩ := hH
  obtain ⟨j, rfl⟩ := hT
  unfold items_offset spec_padded_header_size
  rcases le_total ((2 : Nat) ^ i) ((2 : Nat) ^ j) with hle | hle
  · rw [max_eq_right hle]
  · rw [max_eq_left hle]
    have hdvdT : (2 : Nat) ^ j ∣ sizeH :=
      dvd_trans (pow_two_dvd_of_le hle) hdvd
    rw [roundUp_eq_self (Nat.pow_pos (by omega)) hdvdT,
      roundUp_eq_self (Nat.pow_pos (by omega)) hdvd]

/-- C4 witness at `size H = 2`, `align H = 2`, `align T = 8`. -/
theorem items_offset_eq_spec_witness :
    (IsPowTwo 2 ∧ IsPowTwo 8 ∧ (2 : Nat) ∣ 2)
    ∧ items_offset 2 2 8 = spec_padded_header_size 2 2 8 :=
  ⟨⟨⟨1, rfl⟩, ⟨3, rfl⟩, by decide⟩,
    items_offset_eq_spec 2 2 8 ⟨1, rfl⟩ ⟨3, rfl⟩ (by decide)⟩

/-- C5: when the alignment check fails, `from_boxed_header` hands the
original boxed header back unchanged as the error value. -/
theorem from_boxed_header_err {H T : Type} (alignT : Nat) (b : Ref H)
    (h : is_header_slice_aligned alignT b.addr = false) :
    from_boxed_header (T := T) alignT b = Except.error b := by
  simp [from_boxed_header, h]

/-- C5 witness: a box at address `4` is misaligned for `align T = 8` and
comes back unchanged. -/
theorem from_boxed_header_err_witness :
    is_header_slice_aligned 8 (Ref.mk 4 (3 : Nat)).addr = false
    ∧ from_boxed_header (T := Nat) 8 (Ref.mk 4 (3 : Nat))
        = Except.error (Ref.mk 4 3) :=
  ⟨by decide, from_boxed_header_err 8 (Ref.mk 4 3) (by decide)⟩

/-- C6: `with_header h f` calls `f` once, on the view with header `h` and
payload length `0`, and returns exactly what `f` returns; in particular
projecting the header gives back `h`. -/
theorem with_header_correct {H T R : Type} (h : H)
    (f : HeaderSlice H T → R) :
    with_header h f = f ⟨h, []⟩
    ∧ with_header (T := T) h (fun v => v.header) = h
    ∧ with_header (T := T) h (fun v => v.slice.length) = 0 :=
  ⟨rfl, rfl, rfl⟩

/-- C7: when `align H` is a multiple of `align T`, `from_header` never
fails on any header reference (whose address, as a valid `&H`, is a
multiple of `align H`). -/
theorem from_header_total {H T : Type} (alignH alignT : Nat) (r : Ref H)
    (hdvd : alignH % alignT = 0) (haddr : alignH ∣ r.addr) :
    (from_header (T := T) alignT r).isSome = true := by
  obtain ⟨k, hk⟩ :=
    dvd_trans (Nat.dvd_of_mod_eq_zero hdvd) haddr
  simp [from_header, is_header_slice_aligned, hk, Nat.mul_mod_right]

/-- C7 witness: `align H = 8`, `align T = 4`, header at address `16`. -/
theorem from_header_total_witness :
    ((8 : Nat) % 4 = 0 ∧ (8 : Nat) ∣ 16)
    ∧ (from_header (T := Nat) 4 (Ref.mk 16 (9 : Nat))).isSome = true :=
  ⟨⟨by decide, by decide⟩,
    from_header_total 8 4 (Ref.mk 16 9) (by decide) (by decide)⟩

/-- C8: `from_header_mut` computes exactly the same result as
`from_header` on the same address and header value: it succeeds and fails
in exactly the same cases, with the same view. -/
theorem from_header_mut_eq_from_header {H T : Type} (alignT : Nat)
    (r : Ref H) :
    from_header_mut (T := T) alignT r = from_header (T := T) alignT r :=
  rfl

end HeadRs
